import Mathlib

/-!
Shallow embedding of the googlejson package (Google JSON Style Guide
envelope).  The embedding follows the final source file: the `Response`
envelope, its embedded `Data` payload (opaque item store, field-list codec,
item cursor) and `Error` payload, together with the JSON marshalling
boundary of the Go standard library that the package calls into.
-/

namespace Googlejson

/-- A JSON value, modelling the structured byte output of the Go
`encoding/json` package at the value level (objects keep field order,
which for `json.Marshal` of a struct is declaration order). -/
inductive JValue : Type where
  | null : JValue
  | bool : Bool → JValue
  | num : Int → JValue
  | str : String → JValue
  | arr : List JValue → JValue
  | obj : List (String × JValue) → JValue
  deriving Repr

/-- Go `json.RawMessage` ([]byte holding serialized JSON).  `none` models a
nil byte slice (what `json.Marshal` returns alongside an error); `some j`
models bytes that parse as the JSON value `j`. -/
def RawMessage : Type := Option JValue

/-- Outcome of running a Go statement sequence: either a normal value or a
runtime panic (such as an index-out-of-range on a slice). -/
inductive GoResult (α : Type) : Type where
  | ok : α → GoResult α
  | panic : String → GoResult α
  deriving Repr

/-- The record type used by the package test-suite (`CarItem`) as a sample
serializable payload record. -/
structure CarItem : Type where
  Color : String
  CarType : String
  deriving Repr, DecidableEq, Inhabited

/-- Universe of Go values handed to the marshalling boundary: a
serializable record (`carItem`), or a value such as a Go channel that
`json.Marshal` rejects with an unsupported-type error (`chanValue`). -/
inductive GoValue : Type where
  | carItem : String → String → GoValue
  | chanValue : GoValue
  deriving Repr, DecidableEq

/-- The JSON object that `json.Marshal` produces for a `CarItem` (per its
struct tags `color`, `type`). -/
def encodeCarJson (c : CarItem) : JValue :=
  JValue.obj [("color", JValue.str c.Color), ("type", JValue.str c.CarType)]

/-- Go `json.Marshal` on a `GoValue`: returns the serialized bytes and a
nil error for serializable values, and (nil, error) for a value of an
unsupported type such as a channel. -/
def jsonMarshal : GoValue → RawMessage × Option String
  | GoValue.carItem c t => (some (encodeCarJson { Color := c, CarType := t }), none)
  | GoValue.chanValue => (none, some "json: unsupported type: chan int")

/-- Look a key up in a JSON object (Go map / struct field access during
`json.Unmarshal`); any non-object yields no binding. -/
def jGet : JValue → String → Option JValue
  | JValue.obj kvs, k => kvs.lookup k
  | _, _ => none

/-- Extract a string field during `json.Unmarshal`; a missing field leaves
the zero value "". -/
def jStr (j : JValue) (k : String) : String :=
  match jGet j k with
  | some (JValue.str s) => s
  | _ => ""

/-- Go `json.Unmarshal` of raw bytes into a `*CarItem` target: nil bytes
fail with an unexpected-end-of-input error; a JSON object fills the fields
named by the struct tags (absent fields keep the zero value); `null` is a
no-op success; any other JSON shape is a type mismatch error. -/
def jsonUnmarshalCar : RawMessage → Except String CarItem
  | none => Except.error "unexpected end of JSON input"
  | some (JValue.obj kvs) =>
      Except.ok { Color := jStr (JValue.obj kvs) "color",
                  CarType := jStr (JValue.obj kvs) "type" }
  | some JValue.null => Except.ok { Color := "", CarType := "" }
  | some _ => Except.error "json: cannot unmarshal value into Go value of type googlejson.CarItem"

/-- The `Data` struct: payload metadata, the opaque item store
(`Items : []json.RawMessage`) and the unexported cursor field `item`. -/
structure Data : Type where
  Kind : String
  Fields : String
  Etag : String
  ID : String
  Lang : String
  Updated : String
  Deleted : Bool
  CurrentItemCount : Int
  ItemsPerPage : Int
  StartIndex : Int
  TotalItems : Int
  PageIndex : Int
  TotalPages : Int
  SelfLink : String
  EditLink : String
  NextLink : String
  PreviousLink : String
  Items : List RawMessage
  item : Nat

/-- The Go zero value of `Data` (a nil `Items` slice behaves as the empty
list). -/
def zeroData : Data :=
  { Kind := "", Fields := "", Etag := "", ID := "", Lang := "", Updated := "",
    Deleted := false, CurrentItemCount := 0, ItemsPerPage := 0,
    StartIndex := 0, TotalItems := 0, PageIndex := 0, TotalPages := 0,
    SelfLink := "", EditLink := "", NextLink := "", PreviousLink := "",
    Items := [], item := 0 }

/-- Constructor `NewData`: fresh `Data` with an empty (length-0) item slice. -/
def NewData : Data := zeroData

/-- One `ErrorItem` record of the error payload. -/
structure ErrorItem : Type where
  Message : String
  Location : String
  LocationType : String
  ExtendedHelper : String
  Domains : String
  Reason : String
  SendReport : String
  deriving Repr, DecidableEq

/-- The `Error` payload struct. -/
structure Error : Type where
  Code : Int
  Message : String
  Errors : List ErrorItem
  deriving Repr, DecidableEq

/-- The Go zero value of `Error` (nil `Errors` slice behaves as the empty
list). -/
def zeroError : Error := { Code := 0, Message := "", Errors := [] }

/-- Constructor `NewError`: fresh `Error` with an empty detail list. -/
def NewError : Error := zeroError

/-- The top-level `Response` envelope.  `Params` is a Go
`map[string]string`, modelled as an association list. -/
structure Response : Type where
  APIVersion : String
  Context : String
  ID : String
  Method : String
  Params : List (String × String)
  Data : Data
  Error : Error

/-- Constructor `New()`: fresh envelope with an empty params map, `NewData()` payload
and zero-valued error payload. -/
def New : Response :=
  { APIVersion := "", Context := "", ID := "", Method := "",
    Params := [], Data := NewData, Error := zeroError }

/-- Split a character list at every occurrence of the separator character
(`strings.Split` on its underlying runes, for a one-rune separator). -/
def splitChars (sep : Char) : List Char → List (List Char)
  | [] => [[]]
  | c :: cs =>
      if c = sep then [] :: splitChars sep cs
      else
        match splitChars sep cs with
        | [] => [[c]]
        | g :: gs => (c :: g) :: gs

/-- Go `strings.Split(s, sep)` for the one-character separator used by the
field-list codec: splits around each separator, so the empty string yields
a one-element list holding the empty string. -/
def stringsSplit (s : String) (sep : Char) : List String :=
  (splitChars sep s.data).map (fun cs => String.mk cs)

/-- Go `strings.Join(xs, sep)`: concatenate with the separator between
elements. -/
def stringsJoin (xs : List String) (sep : String) : String :=
  String.intercalate sep xs

/-- Method `GetFields()`: split the stored text on commas; empty text yields the
empty list. -/
def Data.GetFields (d : Data) : List String :=
  if d.Fields = "" then [] else stringsSplit d.Fields ','

/-- Method `AddField(keys ...string)`: decode the stored field-list text, append
each key, re-join with commas and store the result. -/
def Data.AddField (d : Data) (keys : List String) : Data :=
  { d with Fields := stringsJoin (d.GetFields ++ keys) "," }

/-- Method `SetItemCount()`: overwrite `CurrentItemCount` with the length of the
item slice. -/
def Data.SetItemCount (d : Data) : Data :=
  { d with CurrentItemCount := (d.Items.length : Int) }

/-- Method `ItemsCount()`: length of the item slice. -/
def Data.ItemsCount (d : Data) : Nat :=
  d.Items.length

/-- Method `AddItem(i)`: runs `js, err := json.Marshal(i)` followed by an unconditional
`d.Items = append(d.Items, js)`; only then is `err` checked (early return),
and on the nil-error path `SetItemCount` runs before returning nil. -/
def Data.AddItem (d : Data) (v : GoValue) : Data × Option String :=
  let m := jsonMarshal v
  let d1 := { d with Items := d.Items ++ [m.1] }
  match m.2 with
  | some err => (d1, some err)
  | none => (d1.SetItemCount, none)

/-- Method `CurrentItem(i)`: runs `json.Unmarshal(d.Items[d.item], i)`.  The slice
index panics when the cursor is past the end; otherwise the decode result
(parameterised by the caller target type) is returned. -/
def Data.CurrentItem {A : Type} (d : Data) (dec : RawMessage → Except String A) :
    GoResult (Except String A) :=
  match d.Items.get? d.item with
  | some rm => GoResult.ok (dec rm)
  | none => GoResult.panic "runtime error: index out of range"

/-- Method `NextItem(i)`: if `ItemsCount() == item+1` return the end-of-items
error leaving the cursor in place; otherwise increment the cursor first and
then run `CurrentItem` at the new position.  Returns the resulting `Data`
state (mutated even when the subsequent index panics) with the outcome. -/
def Data.NextItem {A : Type} (d : Data) (dec : RawMessage → Except String A) :
    Data × GoResult (Except String A) :=
  let count := d.ItemsCount
  if count = d.item + 1 then
    (d, GoResult.ok (Except.error "End of items"))
  else
    let d2 := { d with item := d.item + 1 }
    (d2, d2.CurrentItem dec)

/-- Method `ResetItems()`: cursor back to 0. -/
def Data.ResetItems (d : Data) : Data :=
  { d with item := 0 }

/-- Method `Copy()`: a fresh `Response` taking only `APIVersion`, `Method` and
`Params` from the source; every other field is the Go zero value. -/
def Response.Copy (r : Response) : Response :=
  { APIVersion := r.APIVersion, Context := "", ID := "",
    Method := r.Method, Params := r.Params,
    Data := zeroData, Error := zeroError }

/-! ### The `json.Marshal` output for a whole `Response`

`json.Marshal` of a struct emits fields in declaration order, dropping a
field tagged `omitempty` whenever it holds the Go empty value (zero number,
empty string, false, nil or empty map/slice).  An embedded struct field is
never considered empty, so `data` and `error` are always emitted.  A nil
`json.RawMessage` inside `Items` marshals as the JSON literal `null`. -/

/-- One field of a marshalled object: emitted iff `emit` holds. -/
def emitIf (k : String) (emit : Bool) (j : JValue) : List (String × JValue) :=
  if emit then [(k, j)] else []

/-- A string struct field tagged `omitempty`. -/
def omitStr (k v : String) : List (String × JValue) :=
  emitIf k (decide (v ≠ "")) (JValue.str v)

/-- An int struct field tagged `omitempty`. -/
def omitInt (k : String) (v : Int) : List (String × JValue) :=
  emitIf k (decide (v ≠ 0)) (JValue.num v)

/-- Marshal of one stored raw message: nil bytes emit as `null`. -/
def rawToJson (rm : RawMessage) : JValue :=
  match rm with
  | some j => j
  | none => JValue.null

/-- Marshal of the `Data` struct per its json tags (only `deleted` lacks
`omitempty`). -/
def encodeData (d : Data) : JValue :=
  JValue.obj
    (omitStr "kind" d.Kind ++ omitStr "fields" d.Fields ++
     omitStr "etag" d.Etag ++ omitStr "id" d.ID ++
     omitStr "lang" d.Lang ++ omitStr "updated" d.Updated ++
     [("deleted", JValue.bool d.Deleted)] ++
     omitInt "currentItemCount" d.CurrentItemCount ++
     omitInt "itemsPerPage" d.ItemsPerPage ++
     omitInt "startIndex" d.StartIndex ++
     omitInt "totalItems" d.TotalItems ++
     omitInt "pageIndex" d.PageIndex ++
     omitInt "totalPages" d.TotalPages ++
     omitStr "selfLink" d.SelfLink ++ omitStr "editLink" d.EditLink ++
     omitStr "nextLink" d.NextLink ++ omitStr "previousLink" d.PreviousLink ++
     emitIf "items" (!d.Items.isEmpty) (JValue.arr (d.Items.map rawToJson)))

/-- Marshal of one `ErrorItem` per its json tags (all `omitempty`). -/
def encodeErrorItem (it : ErrorItem) : JValue :=
  JValue.obj
    (omitStr "message" it.Message ++ omitStr "location" it.Location ++
     omitStr "locationType" it.LocationType ++
     omitStr "extendedHelper" it.ExtendedHelper ++
     omitStr "domain" it.Domains ++ omitStr "reason" it.Reason ++
     omitStr "sendReport" it.SendReport)

/-- Marshal of the `Error` struct per its json tags (all `omitempty`). -/
def encodeError (e : Error) : JValue :=
  JValue.obj
    (omitInt "code" e.Code ++ omitStr "message" e.Message ++
     emitIf "errors" (!e.Errors.isEmpty) (JValue.arr (e.Errors.map encodeErrorItem)))

/-- Marshal of the `Response` struct per its json tags: `params` is
`omitempty` (nil/empty map dropped); the embedded `Data` and `Error`
structs are always emitted. -/
def encodeResponse (r : Response) : JValue :=
  JValue.obj
    (omitStr "apiVersion" r.APIVersion ++ omitStr "context" r.Context ++
     omitStr "id" r.ID ++ omitStr "method" r.Method ++
     emitIf "params" (!r.Params.isEmpty)
       (JValue.obj (r.Params.map (fun kv => (kv.1, JValue.str kv.2)))) ++
     [("data", encodeData r.Data)] ++
     [("error", encodeError r.Error)])

/-- Method `Write()`: runs `r.Data.SetItemCount()` and then `json.Marshal(r)`.
Marshalling a `Response` cannot fail (every field is of a marshallable
type), so the error result is always nil; the returned pair is the
post-call state of the receiver together with the produced bytes. -/
def Response.Write (r : Response) : Response × JValue :=
  let r2 := { r with Data := r.Data.SetItemCount }
  (r2, encodeResponse r2)

/-! ### The `json.Unmarshal` side

`NewFromHTTPResponse` reads the body and unmarshals it into a fresh
`New()` envelope: for each json key present in the object the matching
struct field is overwritten; absent keys leave the `New()` value in place
(for `New()` those are all Go zero values, an empty params map and an
empty item slice). -/

/-- Unmarshal an int field; a missing field leaves the zero value 0. -/
def jInt (j : JValue) (k : String) : Int :=
  match jGet j k with
  | some (JValue.num n) => n
  | _ => 0

/-- Unmarshal a bool field; a missing field leaves the zero value false. -/
def jBool (j : JValue) (k : String) : Bool :=
  match jGet j k with
  | some (JValue.bool b) => b
  | _ => false

/-- Unmarshal a `[]json.RawMessage` field: each array element is stored as
its own raw bytes; a missing field leaves the empty slice from
`NewData()`. -/
def jItems (j : JValue) (k : String) : List RawMessage :=
  match jGet j k with
  | some (JValue.arr xs) => xs.map (fun x => some x)
  | _ => []

/-- Unmarshal a `map[string]string` field; a missing field leaves the
empty map from `New()`. -/
def jParams (j : JValue) (k : String) : List (String × String) :=
  match jGet j k with
  | some (JValue.obj kvs) =>
      kvs.map (fun kv => (kv.1, match kv.2 with
        | JValue.str s => s
        | _ => ""))
  | _ => []

/-- Unmarshal the `data` object into a `Data` value (the unexported cursor
field `item` is untouched by `json.Unmarshal` and stays 0). -/
def decodeData (j : JValue) : Data :=
  { Kind := jStr j "kind", Fields := jStr j "fields", Etag := jStr j "etag",
    ID := jStr j "id", Lang := jStr j "lang", Updated := jStr j "updated",
    Deleted := jBool j "deleted",
    CurrentItemCount := jInt j "currentItemCount",
    ItemsPerPage := jInt j "itemsPerPage", StartIndex := jInt j "startIndex",
    TotalItems := jInt j "totalItems", PageIndex := jInt j "pageIndex",
    TotalPages := jInt j "totalPages",
    SelfLink := jStr j "selfLink", EditLink := jStr j "editLink",
    NextLink := jStr j "nextLink", PreviousLink := jStr j "previousLink",
    Items := jItems j "items", item := 0 }

/-- Unmarshal one element of the `errors` array. -/
def decodeErrorItem (j : JValue) : ErrorItem :=
  { Message := jStr j "message", Location := jStr j "location",
    LocationType := jStr j "locationType",
    ExtendedHelper := jStr j "extendedHelper",
    Domains := jStr j "domain", Reason := jStr j "reason",
    SendReport := jStr j "sendReport" }

/-- Unmarshal the `error` object into an `Error` value. -/
def decodeError (j : JValue) : Error :=
  { Code := jInt j "code", Message := jStr j "message",
    Errors := match jGet j "errors" with
      | some (JValue.arr xs) => xs.map decodeErrorItem
      | _ => [] }

/-- Constructor `NewFromHTTPResponse`: read the whole body (already parsed here to a
`JValue`) and `json.Unmarshal` it into a `New()` envelope.  A `data` or
`error` key that is absent leaves the `New()` sub-struct in place. -/
def NewFromHTTPResponse (body : JValue) : Response :=
  { APIVersion := jStr body "apiVersion", Context := jStr body "context",
    ID := jStr body "id", Method := jStr body "method",
    Params := jParams body "params",
    Data := match jGet body "data" with
      | some dj => decodeData dj
      | none => NewData,
    Error := match jGet body "error" with
      | some ej => decodeError ej
      | none => zeroError }

/-! ### State machine over one `Data` payload (for the cursor invariant)

One step is a call to `AddItem`, `ResetItems`, `CurrentItem` or
`NextItem`; the decode target does not affect the payload state or whether
a call panics, so steps use a trivial decoder. -/

/-- One cursor-machine operation on a `Data` payload. -/
inductive Op : Type where
  | addItem : GoValue → Op
  | resetItems : Op
  | currentItem : Op
  | nextItem : Op

/-- The decode used by state-machine steps (target contents are
irrelevant to state evolution). -/
def unitDec : RawMessage → Except String Unit := fun _ => Except.ok ()

/-- Whether a `GoResult` is a runtime panic. -/
def GoResult.panicked {α : Type} : GoResult α → Bool
  | GoResult.ok _ => false
  | GoResult.panic _ => true

/-- Run one operation: the resulting payload state paired with true when
the call panicked (the state is the one Go would leave behind if the panic
were recovered). -/
def stepOp (d : Data) : Op → Data × Bool
  | Op.addItem v => ((d.AddItem v).1, false)
  | Op.resetItems => (d.ResetItems, false)
  | Op.currentItem => (d, (d.CurrentItem unitDec).panicked)
  | Op.nextItem =>
      let r := d.NextItem unitDec
      (r.1, r.2.panicked)

/-- States reachable from a freshly constructed payload by operations none
of which panics. -/
inductive ReachesSafe : Data → Prop where
  | init : ReachesSafe NewData
  | next (d : Data) (op : Op) : ReachesSafe d → (stepOp d op).2 = false →
      ReachesSafe (stepOp d op).1

/-- Run a sequence of `AddItem` calls on a fresh payload, keeping the
final state (return values are dropped, as a caller that ignores errors
would). -/
def runAdds (vs : List GoValue) : Data :=
  vs.foldl (fun d v => (d.AddItem v).1) NewData

/-- The number of calls in an `AddItem` call sequence whose record
serializes successfully (nil error from `json.Marshal`). -/
def numSuccesses (vs : List GoValue) : Nat :=
  (vs.filter (fun v => (jsonMarshal v).2.isNone)).length

/-! ### Lemmas about object lookup in marshalled output -/

theorem lookup_append (l1 l2 : List (String × JValue)) (k : String) :
    (l1 ++ l2).lookup k = ((l1.lookup k).or (l2.lookup k)) := by
  induction l1 with
  | nil => simp [List.lookup]
  | cons a t ih =>
      cases a with
      | mk k' v =>
          simp only [List.cons_append, List.lookup]
          by_cases h : (k == k')
          · simp [h]
          · simp [h, ih]

theorem lookup_emitIf (k k' : String) (b : Bool) (j : JValue) :
    (emitIf k b j).lookup k' = if (k' == k) && b then some j else none := by
  unfold emitIf
  cases b <;> by_cases h : (k' == k) <;> simp [List.lookup, h]

/-! ### Field-level inversion of `encodeData` -/

theorem jStr_data_kind (d : Data) : jStr (encodeData d) "kind" = d.Kind := by
  by_cases h : d.Kind = "" <;>
    simp [jStr, jGet, encodeData, lookup_append, lookup_emitIf, omitStr, omitInt,
      List.lookup, h]

theorem jStr_data_fields (d : Data) : jStr (encodeData d) "fields" = d.Fields := by
  by_cases h : d.Fields = "" <;>
    simp [jStr, jGet, encodeData, lookup_append, lookup_emitIf, omitStr, omitInt,
      List.lookup, h]

theorem jStr_data_etag (d : Data) : jStr (encodeData d) "etag" = d.Etag := by
  by_cases h : d.Etag = "" <;>
    simp [jStr, jGet, encodeData, lookup_append, lookup_emitIf, omitStr, omitInt,
      List.lookup, h]

theorem jStr_data_id (d : Data) : jStr (encodeData d) "id" = d.ID := by
  by_cases h : d.ID = "" <;>
    simp [jStr, jGet, encodeData, lookup_append, lookup_emitIf, omitStr, omitInt,
      List.lookup, h]

theorem jStr_data_lang (d : Data) : jStr (encodeData d) "lang" = d.Lang := by
  by_cases h : d.Lang = "" <;>
    simp [jStr, jGet, encodeData, lookup_append, lookup_emitIf, omitStr, omitInt,
      List.lookup, h]

theorem jStr_data_updated (d : Data) : jStr (encodeData d) "updated" = d.Updated := by
  by_cases h : d.Updated = "" <;>
    simp [jStr, jGet, encodeData, lookup_append, lookup_emitIf, omitStr, omitInt,
      List.lookup, h]

theorem jBool_data_deleted (d : Data) : jBool (encodeData d) "deleted" = d.Deleted := by
  simp [jBool, jGet, encodeData, lookup_append, lookup_emitIf, omitStr, omitInt,
    List.lookup]

theorem jInt_data_currentItemCount (d : Data) :
    jInt (encodeData d) "currentItemCount" = d.CurrentItemCount := by
  by_cases h : d.CurrentItemCount = 0 <;>
    simp [jInt, jGet, encodeData, lookup_append, lookup_emitIf, omitStr, omitInt,
      List.lookup, h]

theorem jInt_data_itemsPerPage (d : Data) :
    jInt (encodeData d) "itemsPerPage" = d.ItemsPerPage := by
  by_cases h : d.ItemsPerPage = 0 <;>
    simp [jInt, jGet, encodeData, lookup_append, lookup_emitIf, omitStr, omitInt,
      List.lookup, h]

theorem jInt_data_startIndex (d : Data) :
    jInt (encodeData d) "startIndex" = d.StartIndex := by
  by_cases h : d.StartIndex = 0 <;>
    simp [jInt, jGet, encodeData, lookup_append, lookup_emitIf, omitStr, omitInt,
      List.lookup, h]

theorem jInt_data_totalItems (d : Data) :
    jInt (encodeData d) "totalItems" = d.TotalItems := by
  by_cases h : d.TotalItems = 0 <;>
    simp [jInt, jGet, encodeData, lookup_append, lookup_emitIf, omitStr, omitInt,
      List.lookup, h]

theorem jInt_data_pageIndex (d : Data) :
    jInt (encodeData d) "pageIndex" = d.PageIndex := by
  by_cases h : d.PageIndex = 0 <;>
    simp [jInt, jGet, encodeData, lookup_append, lookup_emitIf, omitStr, omitInt,
      List.lookup, h]

theorem jInt_data_totalPages (d : Data) :
    jInt (encodeData d) "totalPages" = d.TotalPages := by
  by_cases h : d.TotalPages = 0 <;>
    simp [jInt, jGet, encodeData, lookup_append, lookup_emitIf, omitStr, omitInt,
      List.lookup, h]

theorem jStr_data_selfLink (d : Data) : jStr (encodeData d) "selfLink" = d.SelfLink := by
  by_cases h : d.SelfLink = "" <;>
    simp [jStr, jGet, encodeData, lookup_append, lookup_emitIf, omitStr, omitInt,
      List.lookup, h]

theorem jStr_data_editLink (d : Data) : jStr (encodeData d) "editLink" = d.EditLink := by
  by_cases h : d.EditLink = "" <;>
    simp [jStr, jGet, encodeData, lookup_append, lookup_emitIf, omitStr, omitInt,
      List.lookup, h]

theorem jStr_data_nextLink (d : Data) : jStr (encodeData d) "nextLink" = d.NextLink := by
  by_cases h : d.NextLink = "" <;>
    simp [jStr, jGet, encodeData, lookup_append, lookup_emitIf, omitStr, omitInt,
      List.lookup, h]

theorem jStr_data_previousLink (d : Data) :
    jStr (encodeData d) "previousLink" = d.PreviousLink := by
  by_cases h : d.PreviousLink = "" <;>
    simp [jStr, jGet, encodeData, lookup_append, lookup_emitIf, omitStr, omitInt,
      List.lookup, h]

theorem jItems_data_items (d : Data) :
    jItems (encodeData d) "items" = d.Items.map (fun rm => some (rawToJson rm)) := by
  by_cases h : d.Items.isEmpty <;>
    simp_all [jItems, jGet, encodeData, lookup_append, lookup_emitIf, omitStr, omitInt,
      List.lookup, List.isEmpty_iff]

/-- A raw-message list with no nil entry survives marshal plus unmarshal
of the `items` array unchanged. -/
theorem map_some_rawToJson (l : List RawMessage) (h : ∀ rm ∈ l, rm ≠ none) :
    l.map (fun rm => some (rawToJson rm)) = l := by
  induction l with
  | nil => rfl
  | cons a t ih =>
      cases a with
      | some j =>
          have ht : ∀ rm ∈ t, rm ≠ none := fun rm hm => h rm (List.mem_cons_of_mem _ hm)
          simp only [List.map_cons]
          rw [ih ht]
          rfl
      | none => exact absurd rfl (h none (List.mem_cons_self _ _))

/-- Unmarshalling the marshalled `data` object reproduces the `Data`
struct (with the unexported cursor at 0), provided no stored raw message
is a nil slice. -/
theorem decodeData_encodeData (d : Data) (h : ∀ rm ∈ d.Items, rm ≠ none) :
    decodeData (encodeData d) = { d with item := 0 } := by
  unfold decodeData
  rw [jStr_data_kind, jStr_data_fields, jStr_data_etag, jStr_data_id,
    jStr_data_lang, jStr_data_updated, jBool_data_deleted,
    jInt_data_currentItemCount, jInt_data_itemsPerPage, jInt_data_startIndex,
    jInt_data_totalItems, jInt_data_pageIndex, jInt_data_totalPages,
    jStr_data_selfLink, jStr_data_editLink, jStr_data_nextLink,
    jStr_data_previousLink, jItems_data_items, map_some_rawToJson d.Items h]

/-! ### Field-level inversion of `encodeErrorItem` and `encodeError` -/

theorem jStr_errItem_message (it : ErrorItem) :
    jStr (encodeErrorItem it) "message" = it.Message := by
  by_cases h : it.Message = "" <;>
    simp [jStr, jGet, encodeErrorItem, lookup_append, lookup_emitIf, omitStr,
      List.lookup, h]

theorem jStr_errItem_location (it : ErrorItem) :
    jStr (encodeErrorItem it) "location" = it.Location := by
  by_cases h : it.Location = "" <;>
    simp [jStr, jGet, encodeErrorItem, lookup_append, lookup_emitIf, omitStr,
      List.lookup, h]

theorem jStr_errItem_locationType (it : ErrorItem) :
    jStr (encodeErrorItem it) "locationType" = it.LocationType := by
  by_cases h : it.LocationType = "" <;>
    simp [jStr, jGet, encodeErrorItem, lookup_append, lookup_emitIf, omitStr,
      List.lookup, h]

theorem jStr_errItem_extendedHelper (it : ErrorItem) :
    jStr (encodeErrorItem it) "extendedHelper" = it.ExtendedHelper := by
  by_cases h : it.ExtendedHelper = "" <;>
    simp [jStr, jGet, encodeErrorItem, lookup_append, lookup_emitIf, omitStr,
      List.lookup, h]

theorem jStr_errItem_domain (it : ErrorItem) :
    jStr (encodeErrorItem it) "domain" = it.Domains := by
  by_cases h : it.Domains = "" <;>
    simp [jStr, jGet, encodeErrorItem, lookup_append, lookup_emitIf, omitStr,
      List.lookup, h]

theorem jStr_errItem_reason (it : ErrorItem) :
    jStr (encodeErrorItem it) "reason" = it.Reason := by
  by_cases h : it.Reason = "" <;>
    simp [jStr, jGet, encodeErrorItem, lookup_append, lookup_emitIf, omitStr,
      List.lookup, h]

theorem jStr_errItem_sendReport (it : ErrorItem) :
    jStr (encodeErrorItem it) "sendReport" = it.SendReport := by
  by_cases h : it.SendReport = "" <;>
    simp [jStr, jGet, encodeErrorItem, lookup_append, lookup_emitIf, omitStr,
      List.lookup, h]

theorem decodeErrorItem_encodeErrorItem (it : ErrorItem) :
    decodeErrorItem (encodeErrorItem it) = it := by
  unfold decodeErrorItem
  rw [jStr_errItem_message, jStr_errItem_location, jStr_errItem_locationType,
    jStr_errItem_extendedHelper, jStr_errItem_domain, jStr_errItem_reason,
    jStr_errItem_sendReport]

theorem decodeError_encodeError (e : Error) :
    decodeError (encodeError e) = e := by
  have hc : jInt (encodeError e) "code" = e.Code := by
    by_cases h : e.Code = 0 <;>
      simp [jInt, jGet, encodeError, lookup_append, lookup_emitIf, omitInt,
        omitStr, List.lookup, h]
  have hm : jStr (encodeError e) "message" = e.Message := by
    by_cases h : e.Message = "" <;>
      simp [jStr, jGet, encodeError, lookup_append, lookup_emitIf, omitInt,
        omitStr, List.lookup, h]
  have he : jGet (encodeError e) "errors" =
      if e.Errors.isEmpty then none
      else some (JValue.arr (e.Errors.map encodeErrorItem)) := by
    by_cases h : e.Errors.isEmpty <;>
      simp [jGet, encodeError, lookup_append, lookup_emitIf, omitInt, omitStr,
        List.lookup, h]
  unfold decodeError
  rw [hc, hm, he]
  by_cases h : e.Errors.isEmpty
  · simp only [if_pos h]
    have hnil : e.Errors = [] := List.isEmpty_iff.mp h
    rw [← hnil]
  · simp only [if_neg h]
    have : (e.Errors.map encodeErrorItem).map decodeErrorItem = e.Errors := by
      rw [List.map_map]
      have : (decodeErrorItem ∘ encodeErrorItem) = id := by
        funext it
        exact decodeErrorItem_encodeErrorItem it
      rw [this, List.map_id]
    rw [this]

/-! ### Field-level inversion of `encodeResponse` and the round trip -/

theorem jStr_resp_apiVersion (r : Response) :
    jStr (encodeResponse r) "apiVersion" = r.APIVersion := by
  by_cases h : r.APIVersion = "" <;>
    simp [jStr, jGet, encodeResponse, lookup_append, lookup_emitIf, omitStr,
      List.lookup, h]

theorem jStr_resp_context (r : Response) :
    jStr (encodeResponse r) "context" = r.Context := by
  by_cases h : r.Context = "" <;>
    simp [jStr, jGet, encodeResponse, lookup_append, lookup_emitIf, omitStr,
      List.lookup, h]

theorem jStr_resp_id (r : Response) : jStr (encodeResponse r) "id" = r.ID := by
  by_cases h : r.ID = "" <;>
    simp [jStr, jGet, encodeResponse, lookup_append, lookup_emitIf, omitStr,
      List.lookup, h]

theorem jStr_resp_method (r : Response) :
    jStr (encodeResponse r) "method" = r.Method := by
  by_cases h : r.Method = "" <;>
    simp [jStr, jGet, encodeResponse, lookup_append, lookup_emitIf, omitStr,
      List.lookup, h]

theorem jParams_resp (r : Response) :
    jParams (encodeResponse r) "params" = r.Params := by
  by_cases h : r.Params.isEmpty
  · have hnil : r.Params = [] := List.isEmpty_iff.mp h
    simp [jParams, jGet, encodeResponse, lookup_append, lookup_emitIf, omitStr,
      List.lookup, h, hnil]
  · have : (r.Params.map (fun kv => (kv.1, JValue.str kv.2))).map
        (fun kv => (kv.1, match kv.2 with
          | JValue.str s => s
          | _ => "")) = r.Params := by
      rw [List.map_map]
      have : ((fun (kv : String × JValue) => (kv.1, match kv.2 with
          | JValue.str s => s
          | _ => "")) ∘ (fun (kv : String × String) => (kv.1, JValue.str kv.2)))
          = id := by
        funext kv
        rfl
      rw [this, List.map_id]
    simp [jParams, jGet, encodeResponse, lookup_append, lookup_emitIf, omitStr,
      List.lookup, h, this]

theorem jGet_resp_data (r : Response) :
    jGet (encodeResponse r) "data" = some (encodeData r.Data) := by
  simp [jGet, encodeResponse, lookup_append, lookup_emitIf, omitStr, List.lookup]

theorem jGet_resp_error (r : Response) :
    jGet (encodeResponse r) "error" = some (encodeError r.Error) := by
  simp [jGet, encodeResponse, lookup_append, lookup_emitIf, omitStr, List.lookup]

/-- Unmarshalling the marshalled envelope reproduces every field, with the
unexported cursor back at 0 (given that no stored item is a nil slice). -/
theorem decodeResponse_encodeResponse (r : Response)
    (h : ∀ rm ∈ r.Data.Items, rm ≠ none) :
    NewFromHTTPResponse (encodeResponse r) =
      { r with Data := { r.Data with item := 0 } } := by
  unfold NewFromHTTPResponse
  rw [jStr_resp_apiVersion, jStr_resp_context, jStr_resp_id, jStr_resp_method,
    jParams_resp, jGet_resp_data, jGet_resp_error]
  simp only
  rw [decodeData_encodeData r.Data h, decodeError_encodeError]

/-- Decoding the bytes produced by marshalling a `CarItem` record yields
the original record (the `currentItem` decode semantics on a stored
record). -/
theorem jsonUnmarshalCar_encodeCarJson (c : CarItem) :
    jsonUnmarshalCar (some (encodeCarJson c)) = Except.ok c := by
  cases c
  simp [jsonUnmarshalCar, encodeCarJson, jStr, jGet, List.lookup]

/-- A payload holding exactly two serialized car records, cursor at 0. -/
def d2cars : Data :=
  { zeroData with Items := [some (encodeCarJson { Color := "red", CarType := "SUV" }),
                            some (encodeCarJson { Color := "green", CarType := "hatchback" })] }

/-! ## The claims -/

/-- C1, counterexample: on a fresh payload, `AddItem` of an unserializable
record returns the encoding error, yet the item sequence has grown from
length 0 to length 1 (the nil serialization was appended): the no-partial-
append part of the claim is false on the code. -/
theorem C1_counterexample :
    (NewData.AddItem GoValue.chanValue).2 = some "json: unsupported type: chan int" ∧
    NewData.Items.length = 0 ∧
    (NewData.AddItem GoValue.chanValue).1.Items.length = 1 := by
  refine ⟨rfl, rfl, rfl⟩

/-- C1, amended: when serialization of the record fails, `addItem` returns
the encoding error and leaves the derived current-item-count (and every
other field) unchanged, but the item sequence does change: the nil output
of the failed serialization is appended, so the sequence grows by one. -/
theorem C1_addItemFailure (d : Data) (v : GoValue) (e : String)
    (h : (jsonMarshal v).2 = some e) :
    d.AddItem v = ({ d with Items := d.Items ++ [(jsonMarshal v).1] }, some e) := by
  cases v <;> simp_all [Data.AddItem, jsonMarshal]

/-- C1, witness: the amended statement at the concrete failing input. -/
theorem C1_witness :
    (jsonMarshal GoValue.chanValue).2 = some "json: unsupported type: chan int" ∧
    NewData.AddItem GoValue.chanValue =
      ({ NewData with Items := [none] }, some "json: unsupported type: chan int") :=
  ⟨rfl, C1_addItemFailure NewData GoValue.chanValue _ rfl⟩

/-- C2, counterexample: a single `addItem` call whose record fails to
serialize gives zero successful calls, yet `itemCount()` afterwards is 1,
not 0: the claimed equality with the number of successes is false. -/
theorem C2_counterexample :
    numSuccesses [GoValue.chanValue] = 0 ∧
    (runAdds [GoValue.chanValue]).ItemsCount = 1 := by
  refine ⟨rfl, rfl⟩

/-- Helper: each `AddItem` call grows the item sequence by exactly one,
whether or not the record serializes. -/
theorem addItem_length (d : Data) (v : GoValue) :
    (d.AddItem v).1.Items.length = d.Items.length + 1 := by
  cases hv : (jsonMarshal v).2 <;>
    simp [Data.AddItem, hv, Data.SetItemCount]

/-- Helper: a successful `AddItem` call refreshes the derived count to the
new item-sequence length. -/
theorem addItem_count (d : Data) (v : GoValue) (h : (jsonMarshal v).2 = none) :
    (d.AddItem v).1.CurrentItemCount = ((d.AddItem v).1.Items.length : Int) := by
  simp [Data.AddItem, h, Data.SetItemCount, addItem_length]

/-- Helper: folding `AddItem` over a call list adds one item per call. -/
theorem foldl_addItem_length (vs : List GoValue) (d : Data) :
    (vs.foldl (fun d v => (d.AddItem v).1) d).Items.length =
      d.Items.length + vs.length := by
  induction vs generalizing d with
  | nil => simp
  | cons v t ih =>
      simp only [List.foldl_cons, ih, addItem_length, List.length_cons]
      omega

/-- Helper: after a nonempty all-successful `AddItem` fold, the derived
count equals the final item-sequence length. -/
theorem foldl_addItem_refreshed (vs : List GoValue) (d : Data)
    (hne : vs ≠ []) (h : ∀ v ∈ vs, (jsonMarshal v).2 = none) :
    (vs.foldl (fun d v => (d.AddItem v).1) d).CurrentItemCount =
      (((vs.foldl (fun d v => (d.AddItem v).1) d).Items.length : Nat) : Int) := by
  induction vs generalizing d with
  | nil => exact absurd rfl hne
  | cons v t ih =>
      by_cases ht : t = []
      · subst ht
        simpa using addItem_count d v (h v (List.mem_cons_self _ _))
      · simp only [List.foldl_cons]
        exact ih (d.AddItem v).1 ht (fun w hw => h w (List.mem_cons_of_mem _ hw))

/-- C2, amended: after any sequence of `addItem` calls on a fresh payload,
`itemCount()` equals the TOTAL number of calls (failed calls also append an
entry); when every call succeeds — so the successes are all the calls —
both `itemCount()` and the refreshed derived current-item-count equal that
number. -/
theorem C2_countInvariant (vs : List GoValue) :
    (runAdds vs).ItemsCount = vs.length ∧
    ((∀ v ∈ vs, (jsonMarshal v).2 = none) →
      numSuccesses vs = vs.length ∧
      (runAdds vs).CurrentItemCount = (vs.length : Int)) := by
  have hlen : (runAdds vs).Items.length = vs.length := by
    simpa [runAdds, NewData, zeroData] using foldl_addItem_length vs NewData
  refine ⟨hlen, fun h => ⟨?_, ?_⟩⟩
  · have : vs.filter (fun v => (jsonMarshal v).2.isNone) = vs :=
      List.filter_eq_self.mpr (fun v hv => by rw [h v hv]; rfl)
    simp [numSuccesses, this]
  · rcases eq_or_ne vs [] with hvs | hvs
    · subst hvs; rfl
    · rw [runAdds, foldl_addItem_refreshed vs NewData hvs h]
      rw [← runAdds, hlen]

/-- C2, witness: the amended statement at a concrete one-call sequence. -/
theorem C2_witness :
    (runAdds [GoValue.carItem "red" "SUV"]).ItemsCount = 1 ∧
    numSuccesses [GoValue.carItem "red" "SUV"] = 1 ∧
    (runAdds [GoValue.carItem "red" "SUV"]).CurrentItemCount = 1 :=
  ⟨(C2_countInvariant [GoValue.carItem "red" "SUV"]).1,
   ((C2_countInvariant [GoValue.carItem "red" "SUV"]).2 (by decide)).1,
   ((C2_countInvariant [GoValue.carItem "red" "SUV"]).2 (by decide)).2⟩

/-- C3, counterexample: `currentItem` on a fresh (empty) payload does not
return an error value to the caller at all: it panics with the runtime
index-out-of-range error. -/
theorem C3_counterexample :
    NewData.CurrentItem jsonUnmarshalCar =
      GoResult.panic "runtime error: index out of range" ∧
    ∀ res : Except String CarItem,
      NewData.CurrentItem jsonUnmarshalCar ≠ GoResult.ok res := by
  refine ⟨rfl, fun res h => ?_⟩
  exact GoResult.noConfusion h

/-- C3, amended: whenever the cursor position is out of bounds (in
particular on an empty payload), `currentItem` panics with an
index-out-of-range runtime error instead of returning an `IndexError`. -/
theorem C3_outOfBoundsPanics {A : Type} (dec : RawMessage → Except String A)
    (d : Data) (h : d.Items.length ≤ d.item) :
    d.CurrentItem dec = GoResult.panic "runtime error: index out of range" := by
  unfold Data.CurrentItem
  rw [List.get?_eq_none.mpr h]

/-- C3, witness: the amended statement on the fresh empty payload. -/
theorem C3_witness :
    NewData.Items.length ≤ NewData.item ∧
    NewData.CurrentItem unitDec = GoResult.panic "runtime error: index out of range" :=
  ⟨by decide, C3_outOfBoundsPanics unitDec NewData (by decide)⟩

/-- C4, counterexample: with two stored records and the cursor at position
0 (not the last valid index), `nextItem` returns the decode of the record
at position 1, which differs from the decode of the record at the current
position 0 that the claim prescribes. -/
theorem C4_counterexample :
    d2cars.item = 0 ∧
    (d2cars.NextItem jsonUnmarshalCar).2 =
      GoResult.ok (Except.ok { Color := "green", CarType := "hatchback" }) ∧
    jsonUnmarshalCar (d2cars.Items.getD d2cars.item none) =
      Except.ok { Color := "red", CarType := "SUV" } ∧
    ({ Color := "green", CarType := "hatchback" } : CarItem) ≠
      { Color := "red", CarType := "SUV" } := by
  refine ⟨rfl, rfl, rfl, by decide⟩

/-- C4, amended: with at least one stored item, if the cursor is at the
last valid index `itemCount()-1` then `nextItem` fails with the
end-of-items error and leaves the state (cursor included) unchanged;
otherwise it first advances the cursor to p+1 and then decodes the record
at the NEW position p+1 with the `currentItem` semantics, returning the
outcome of that decode. -/
theorem C4_nextItemSemantics {A : Type} (dec : RawMessage → Except String A)
    (d : Data) (h : 1 ≤ d.Items.length) :
    (d.item = d.Items.length - 1 →
      d.NextItem dec = (d, GoResult.ok (Except.error "End of items"))) ∧
    (d.item ≠ d.Items.length - 1 →
      (d.NextItem dec).1 = { d with item := d.item + 1 } ∧
      (d.NextItem dec).2 = Data.CurrentItem { d with item := d.item + 1 } dec) := by
  constructor
  · intro hlast
    have hc : d.ItemsCount = d.item + 1 := by
      simp only [Data.ItemsCount]; omega
    simp [Data.NextItem, hc]
  · intro hnot
    have hc : ¬ (d.ItemsCount = d.item + 1) := by
      simp only [Data.ItemsCount]; omega
    simp [Data.NextItem, hc]

/-- C4, witness: the amended statement at the two-record payload with the
cursor at 0. -/
theorem C4_witness :
    1 ≤ d2cars.Items.length ∧ d2cars.item ≠ d2cars.Items.length - 1 ∧
    ((d2cars.NextItem jsonUnmarshalCar).1 = { d2cars with item := d2cars.item + 1 } ∧
     (d2cars.NextItem jsonUnmarshalCar).2 =
       Data.CurrentItem { d2cars with item := d2cars.item + 1 } jsonUnmarshalCar) :=
  ⟨by decide, by decide,
   (C4_nextItemSemantics jsonUnmarshalCar d2cars (by decide)).2 (by decide)⟩

/-- C5: with exactly two stored records and the cursor reset to 0,
`currentItem` decodes record 0; `nextItem` decodes record 1 and advances
the cursor to 1; a further `nextItem` fails with the end-of-items error
and leaves the cursor at 1. -/
theorem C5_cursorBoundary (d : Data) (a b : CarItem)
    (h : d.Items = [some (encodeCarJson a), some (encodeCarJson b)]) :
    (d.ResetItems).CurrentItem jsonUnmarshalCar = GoResult.ok (Except.ok a) ∧
    ((d.ResetItems).NextItem jsonUnmarshalCar).2 = GoResult.ok (Except.ok b) ∧
    ((d.ResetItems).NextItem jsonUnmarshalCar).1.item = 1 ∧
    (((d.ResetItems).NextItem jsonUnmarshalCar).1.NextItem jsonUnmarshalCar).2 =
      GoResult.ok (Except.error "End of items") ∧
    (((d.ResetItems).NextItem jsonUnmarshalCar).1.NextItem jsonUnmarshalCar).1.item = 1 := by
  simp [Data.ResetItems, Data.NextItem, Data.CurrentItem, Data.ItemsCount, h,
    jsonUnmarshalCar_encodeCarJson]

/-- C5, witness: the statement at the concrete two-record payload. -/
theorem C5_witness :
    d2cars.Items = [some (encodeCarJson { Color := "red", CarType := "SUV" }),
                    some (encodeCarJson { Color := "green", CarType := "hatchback" })] ∧
    ((d2cars.ResetItems).CurrentItem jsonUnmarshalCar =
       GoResult.ok (Except.ok { Color := "red", CarType := "SUV" }) ∧
     ((d2cars.ResetItems).NextItem jsonUnmarshalCar).2 =
       GoResult.ok (Except.ok { Color := "green", CarType := "hatchback" }) ∧
     ((d2cars.ResetItems).NextItem jsonUnmarshalCar).1.item = 1 ∧
     (((d2cars.ResetItems).NextItem jsonUnmarshalCar).1.NextItem jsonUnmarshalCar).2 =
       GoResult.ok (Except.error "End of items") ∧
     (((d2cars.ResetItems).NextItem jsonUnmarshalCar).1.NextItem jsonUnmarshalCar).1.item = 1) :=
  ⟨rfl, C5_cursorBoundary d2cars
    { Color := "red", CarType := "SUV" }
    { Color := "green", CarType := "hatchback" } rfl⟩

/-- Helper: `CurrentItem` panics exactly when the cursor is past the last
valid index. -/
theorem currentItem_panic_iff {A : Type} (dec : RawMessage → Except String A)
    (d : Data) :
    ((d.CurrentItem dec).panicked = true) ↔ d.Items.length ≤ d.item := by
  unfold Data.CurrentItem
  cases hg : d.Items.get? d.item with
  | none => simp [GoResult.panicked, List.get?_eq_none.mp hg]
  | some rm =>
      obtain ⟨hlt, _⟩ := List.get?_eq_some.mp hg
      simp [GoResult.panicked]
      omega

/-- C6, counterexample: `nextItem` invoked on a fresh (empty) payload
moves the cursor to 1 while `itemCount()` is 0, taking the position
outside the claimed range `[0, itemCount()]`. -/
theorem C6_counterexample :
    (stepOp NewData Op.nextItem).1.item = 1 ∧
    (stepOp NewData Op.nextItem).1.ItemsCount = 0 :=
  ⟨rfl, rfl⟩

/-- C6, amended: the cursor position stays in `[0, itemCount()]` in every
state reached from a fresh payload by operation sequences in which no call
panics; `nextItem` on an empty store is excluded because it panics (after
momentarily moving the cursor to 1 > itemCount() = 0, as the
counterexample shows). -/
theorem C6_cursorRange (d : Data) (h : ReachesSafe d) : d.item ≤ d.ItemsCount := by
  have key : (d.item = 0 ∧ d.Items.length = 0) ∨ d.item < d.Items.length := by
    induction h with
    | init => exact Or.inl ⟨rfl, rfl⟩
    | next d' op hre hnp ih =>
        cases op with
        | addItem v =>
            have h1 : ((d'.AddItem v).1).item = d'.item := by
              cases hv : (jsonMarshal v).2 <;>
                simp [Data.AddItem, hv, Data.SetItemCount]
            have h2 := addItem_length d' v
            simp only [stepOp]
            rw [h1, h2]
            omega
        | resetItems =>
            simp only [stepOp, Data.ResetItems]
            rcases Nat.eq_zero_or_pos d'.Items.length with h0 | hpos
            · exact Or.inl ⟨trivial, h0⟩
            · exact Or.inr hpos
        | currentItem =>
            simpa [stepOp] using ih
        | nextItem =>
            revert hnp
            simp only [stepOp, Data.NextItem]
            by_cases hc : d'.ItemsCount = d'.item + 1
            · simp only [if_pos hc]
              intro _
              exact ih
            · simp only [if_neg hc]
              intro hnp
              have hlt : d'.item + 1 < d'.Items.length := by
                rcases Nat.lt_or_ge (d'.item + 1) d'.Items.length with hlt | hge
                · exact hlt
                · exfalso
                  have hp : (Data.CurrentItem { d' with item := d'.item + 1 } unitDec).panicked
                      = true :=
                    (currentItem_panic_iff unitDec _).mpr (by simpa using hge)
                  rw [hp] at hnp
                  cases hnp
              exact Or.inr (by simpa using hlt)
  simp only [Data.ItemsCount]
  omega

/-- C6, witness: the amended statement at a concrete safely-reached state
(one successful `addItem` on a fresh payload). -/
theorem C6_witness :
    (stepOp NewData (Op.addItem (GoValue.carItem "red" "SUV"))).1.item ≤
      (stepOp NewData (Op.addItem (GoValue.carItem "red" "SUV"))).1.ItemsCount :=
  C6_cursorRange _ (ReachesSafe.next NewData _ ReachesSafe.init rfl)

/-- Helper: positional access into the mapped item list of stored
records. -/
theorem getD_map_encode (l : List CarItem) (k : Nat) (hk : k < l.length) :
    (l.map (fun c => some (encodeCarJson c))).getD k none =
      some (encodeCarJson (l.getD k default)) := by
  induction l generalizing k with
  | nil => cases hk
  | cons a t ih =>
      cases k with
      | zero => rfl
      | succ n => exact ih n (by simpa using hk)

/-- An envelope whose derived count disagrees with its (empty) item list:
serialization overwrites the count, so the round trip cannot reproduce
it. -/
def e7cex : Response := { New with Data := { NewData with CurrentItemCount := 7 } }

/-- C7, counterexample: an envelope with 0 opaque items whose
current-item-count field holds 7.  Deserializing the bytes produced by
serializing it yields current-item-count 0, not 7: the metadata is not
reproduced, so the claim as stated is false. -/
theorem C7_counterexample :
    e7cex.Data.Items = [] ∧
    e7cex.Data.CurrentItemCount = 7 ∧
    (NewFromHTTPResponse e7cex.Write.2).Data.CurrentItemCount = 0 := by
  refine ⟨rfl, rfl, by decide⟩

/-- C7, amended: for an envelope whose item list holds the serializations
of N records, deserializing the serialized bytes reproduces the envelope
exactly except that the derived current-item-count now equals N (it is
overwritten during serialization) and the unexported cursor is back at 0;
in particular all other metadata is reproduced, the item list has length
N, and entry k re-decodes to record k. -/
theorem C7_roundTrip (e : Response) (records : List CarItem)
    (h : e.Data.Items = records.map (fun c => some (encodeCarJson c))) :
    NewFromHTTPResponse e.Write.2 =
      { e with Data := { e.Data with
                          CurrentItemCount := (records.length : Int),
                          item := 0 } } ∧
    (NewFromHTTPResponse e.Write.2).Data.Items.length = records.length ∧
    (∀ k, k < records.length →
      jsonUnmarshalCar ((NewFromHTTPResponse e.Write.2).Data.Items.getD k none) =
        Except.ok (records.getD k default)) := by
  have hlen : e.Data.Items.length = records.length := by
    rw [h, List.length_map]
  have hno : ∀ rm ∈ ({ e with Data := e.Data.SetItemCount } : Response).Data.Items,
      rm ≠ none := by
    intro rm hm
    simp only [Data.SetItemCount] at hm
    rw [h] at hm
    obtain ⟨c, _, hc⟩ := List.mem_map.mp hm
    rw [← hc]
    simp
  have hdec := decodeResponse_encodeResponse { e with Data := e.Data.SetItemCount } hno
  have hw : NewFromHTTPResponse e.Write.2 =
      { e with Data := { e.Data with
                          CurrentItemCount := (records.length : Int),
                          item := 0 } } := by
    rw [show e.Write.2 = encodeResponse { e with Data := e.Data.SetItemCount } from rfl]
    rw [hdec]
    simp [Data.SetItemCount, hlen]
  refine ⟨hw, ?_, ?_⟩
  · rw [hw]
    simpa using hlen
  · intro k hk
    rw [hw]
    simp only
    rw [h]
    rw [getD_map_encode records k hk]
    exact jsonUnmarshalCar_encodeCarJson _

/-- A concrete envelope holding one serialized car record. -/
def eWData : Data :=
  { NewData with
      Kind := "car",
      Items := [some (encodeCarJson { Color := "red", CarType := "SUV" })] }

/-- A concrete one-record envelope. -/
def eW : Response :=
  { New with APIVersion := "0.1", Method := "cars.get", Data := eWData }

/-- C7, witness: the amended statement at a concrete one-record
envelope. -/
theorem C7_witness :
    eW.Data.Items =
      [{ Color := "red", CarType := "SUV" }].map (fun c => some (encodeCarJson c)) ∧
    (NewFromHTTPResponse eW.Write.2 =
      { eW with Data := { eW.Data with CurrentItemCount := (1 : Int), item := 0 } } ∧
     (NewFromHTTPResponse eW.Write.2).Data.Items.length = 1 ∧
     (∀ k, k < 1 →
       jsonUnmarshalCar ((NewFromHTTPResponse eW.Write.2).Data.Items.getD k none) =
         Except.ok ([{ Color := "red", CarType := "SUV" }].getD k default))) :=
  ⟨rfl, C7_roundTrip eW [{ Color := "red", CarType := "SUV" }] rfl⟩

/-- C8: starting from a payload whose field-list text is "x" (the decoded
list is exactly ["x"]), adding the fields "a" and "b" makes `getFields`
return ["x","a","b"]; and on a payload whose field-list text is empty,
`getFields` returns the empty list, not [""]. -/
theorem C8_fieldCodec (d e : Data) (hd : d.Fields = "x") (he : e.Fields = "") :
    d.GetFields = ["x"] ∧
    (d.AddField ["a", "b"]).GetFields = ["x", "a", "b"] ∧
    e.GetFields = [] := by
  refine ⟨?_, ?_, ?_⟩
  · simp only [Data.GetFields, hd]
    decide
  · simp only [Data.AddField, Data.GetFields, hd]
    decide
  · simp [Data.GetFields, he]

/-- C8, witness: the statement at concrete payloads carrying the two
field-list texts. -/
theorem C8_witness :
    ({ zeroData with Fields := "x" } : Data).Fields = "x" ∧ zeroData.Fields = "" ∧
    (({ zeroData with Fields := "x" } : Data).GetFields = ["x"] ∧
     (({ zeroData with Fields := "x" } : Data).AddField ["a", "b"]).GetFields =
       ["x", "a", "b"] ∧
     zeroData.GetFields = []) :=
  ⟨rfl, rfl, C8_fieldCodec { zeroData with Fields := "x" } zeroData rfl rfl⟩

/-- C9: the metadata copy keeps API version, method and the parameter map
of the source and resets everything else: context and request id are
empty, the data payload is the zero payload (no items, zero derived count,
cursor 0) and the error payload is the zero payload (code 0, empty
message, empty detail list). -/
theorem C9_copyMetadata (r : Response) :
    (r.Copy).APIVersion = r.APIVersion ∧
    (r.Copy).Method = r.Method ∧
    (r.Copy).Params = r.Params ∧
    (r.Copy).Context = "" ∧
    (r.Copy).ID = "" ∧
    (r.Copy).Data = zeroData ∧
    (r.Copy).Data.Items = [] ∧
    (r.Copy).Data.CurrentItemCount = 0 ∧
    (r.Copy).Error = zeroError ∧
    (r.Copy).Error.Errors = [] := by
  refine ⟨rfl, rfl, rfl, rfl, rfl, rfl, rfl, rfl, rfl, rfl⟩

/-- C10: `Write` first overwrites the data payload's derived
current-item-count with the live length of the item list, emits the bytes
of the so-updated envelope, and leaves every other field (envelope
metadata, all other data-payload fields, the cursor, and the whole error
payload) unchanged. -/
theorem C10_writeRefreshesCount (r : Response) :
    (r.Write).1.Data.CurrentItemCount = (r.Data.Items.length : Int) ∧
    (r.Write).2 = encodeResponse (r.Write).1 ∧
    (r.Write).1.APIVersion = r.APIVersion ∧
    (r.Write).1.Context = r.Context ∧
    (r.Write).1.ID = r.ID ∧
    (r.Write).1.Method = r.Method ∧
    (r.Write).1.Params = r.Params ∧
    (r.Write).1.Error = r.Error ∧
    (r.Write).1.Data.Kind = r.Data.Kind ∧
    (r.Write).1.Data.Fields = r.Data.Fields ∧
    (r.Write).1.Data.Etag = r.Data.Etag ∧
    (r.Write).1.Data.ID = r.Data.ID ∧
    (r.Write).1.Data.Lang = r.Data.Lang ∧
    (r.Write).1.Data.Updated = r.Data.Updated ∧
    (r.Write).1.Data.Deleted = r.Data.Deleted ∧
    (r.Write).1.Data.ItemsPerPage = r.Data.ItemsPerPage ∧
    (r.Write).1.Data.StartIndex = r.Data.StartIndex ∧
    (r.Write).1.Data.TotalItems = r.Data.TotalItems ∧
    (r.Write).1.Data.PageIndex = r.Data.PageIndex ∧
    (r.Write).1.Data.TotalPages = r.Data.TotalPages ∧
    (r.Write).1.Data.SelfLink = r.Data.SelfLink ∧
    (r.Write).1.Data.EditLink = r.Data.EditLink ∧
    (r.Write).1.Data.NextLink = r.Data.NextLink ∧
    (r.Write).1.Data.PreviousLink = r.Data.PreviousLink ∧
    (r.Write).1.Data.Items = r.Data.Items ∧
    (r.Write).1.Data.item = r.Data.item := by
  refine ⟨rfl, rfl, rfl, rfl, rfl, rfl, rfl, rfl, rfl, rfl, rfl, rfl, rfl, rfl,
    rfl, rfl, rfl, rfl, rfl, rfl, rfl, rfl, rfl, rfl, rfl, rfl⟩

end Googlejson
